import Mathlib

/-!
Verification of the pengler media-cache core against its specification.

The Rust sources under `src-tauri/src` are shallowly embedded:
pure functions become Lean functions, the SQLite store becomes an explicit
`Db` state, the filesystem becomes an explicit `Fs` state, and the
mutex-guarded in-memory task registry becomes explicit state passing
(each locked operation is one atomic step of a transition system).
-/

namespace Pengler

/-! ## Task manager (`src/src-tauri/src/task_manager.rs`) -/

/-- `TaskStatus` from `task_manager.rs`. -/
inductive TaskStatus where
  | running
  | paused
  | stopped
  | completed
deriving DecidableEq, Repr

/-- `TaskInfo` from `task_manager.rs`: the mutex-protected progress record. -/
structure TaskInfo where
  folderPath : String
  totalFiles : Nat
  processedFiles : Nat
  optimizedFiles : Nat
  failedFiles : Nat
  status : TaskStatus
deriving DecidableEq, Repr

/-- `Task` from `task_manager.rs`. The `Arc<Mutex<TaskInfo>>` and the two
`AtomicBool` flags collapse to plain fields; every method of the Rust
`Task` takes the lock for its whole body, so each method is one atomic
step on this state. -/
structure Task where
  info : TaskInfo
  shouldPause : Bool
  shouldStop : Bool
deriving DecidableEq, Repr

/-- `Task::new`. -/
def Task.new (folderPath : String) (totalFiles : Nat) : Task :=
  { info :=
      { folderPath := folderPath
        totalFiles := totalFiles
        processedFiles := 0
        optimizedFiles := 0
        failedFiles := 0
        status := TaskStatus.running }
    shouldPause := false
    shouldStop := false }

/-- `Task::increment_processed`. -/
def Task.incrementProcessed (t : Task) : Task :=
  { t with info := { t.info with processedFiles := t.info.processedFiles + 1 } }

/-- `Task::increment_optimized`. -/
def Task.incrementOptimized (t : Task) : Task :=
  { t with info := { t.info with optimizedFiles := t.info.optimizedFiles + 1 } }

/-- `Task::increment_failed`. -/
def Task.incrementFailed (t : Task) : Task :=
  { t with info := { t.info with failedFiles := t.info.failedFiles + 1 } }

/-- `Task::pause`: sets the pause flag and unconditionally writes `Paused`. -/
def Task.pause (t : Task) : Task :=
  { t with shouldPause := true, info := { t.info with status := TaskStatus.paused } }

/-- `Task::resume`: clears the pause flag and unconditionally writes `Running`. -/
def Task.resume (t : Task) : Task :=
  { t with shouldPause := false, info := { t.info with status := TaskStatus.running } }

/-- `Task::stop`: sets the stop flag and writes `Stopped`. No method ever
clears `should_stop` again. -/
def Task.stop (t : Task) : Task :=
  { t with shouldStop := true, info := { t.info with status := TaskStatus.stopped } }

/-- `Task::complete`: unconditionally writes `Completed`. -/
def Task.complete (t : Task) : Task :=
  { t with info := { t.info with status := TaskStatus.completed } }

/-- `Task::is_paused`. -/
def Task.isPaused (t : Task) : Bool := t.shouldPause

/-- `Task::is_stopped`. -/
def Task.isStopped (t : Task) : Bool := t.shouldStop

/-- `Task::get_info` (clone under the lock). -/
def Task.getInfo (t : Task) : TaskInfo := t.info

/-- One atomic call on a `Task` (each Rust method holds the info lock for
its whole body, so concurrent calls serialize into a sequence of these). -/
inductive TOp where
  | pause
  | resume
  | stop
  | complete
  | incProcessed
  | incOptimized
  | incFailed
deriving DecidableEq, Repr

/-- Apply one serialized task-method call. -/
def applyTOp (t : Task) : TOp → Task
  | TOp.pause => t.pause
  | TOp.resume => t.resume
  | TOp.stop => t.stop
  | TOp.complete => t.complete
  | TOp.incProcessed => t.incrementProcessed
  | TOp.incOptimized => t.incrementOptimized
  | TOp.incFailed => t.incrementFailed

/-- Apply a serialized sequence of task-method calls. -/
def applyTOps (t : Task) (ops : List TOp) : Task :=
  ops.foldl applyTOp t

/-- No task-method call ever clears the `should_stop` flag. -/
theorem applyTOp_shouldStop (t : Task) (op : TOp) (h : t.shouldStop = true) :
    (applyTOp t op).shouldStop = true := by
  cases op <;>
    simp [applyTOp, Task.pause, Task.resume, Task.stop, Task.complete,
      Task.incrementProcessed, Task.incrementOptimized, Task.incrementFailed, h]

theorem applyTOps_shouldStop (ops : List TOp) (t : Task) (h : t.shouldStop = true) :
    (applyTOps t ops).shouldStop = true := by
  induction ops generalizing t with
  | nil => exact h
  | cons op rest ih =>
      exact ih (applyTOp t op) (applyTOp_shouldStop t op h)

/-! ## Task registry (`TaskManager` in `task_manager.rs`) -/

/-- `TaskManager`: the `HashMap<String, Arc<Task>>` registry, as an
association list with at most one live binding per key (lookup finds the
first binding, and inserts replace). Every method takes the registry lock,
so each method is one atomic step. -/
structure TaskManager where
  tasks : List (String × Task)
deriving Repr

/-- `TaskManager::new`. -/
def TaskManager.new : TaskManager := { tasks := [] }

/-- `TaskManager::get_task`. -/
def TaskManager.getTask (m : TaskManager) (folderPath : String) : Option Task :=
  m.tasks.lookup folderPath

/-- `TaskManager::add_task`: inserts a fresh task, replacing any existing
binding for the same folder path. -/
def TaskManager.addTask (m : TaskManager) (folderPath : String) (totalFiles : Nat) :
    TaskManager :=
  { tasks := (folderPath, Task.new folderPath totalFiles) ::
      m.tasks.filter (fun kv => !(kv.1 == folderPath)) }

/-- `TaskManager::remove_task`. -/
def TaskManager.removeTask (m : TaskManager) (folderPath : String) : TaskManager :=
  { tasks := m.tasks.filter (fun kv => !(kv.1 == folderPath)) }

/-- Mutate the task registered under `folderPath` in place (the Rust code
calls a `&self` method on the shared `Arc<Task>`; here the registry state
is rebuilt with the updated task). Leaves the registry unchanged when no
task is registered. -/
def TaskManager.updateTask (m : TaskManager) (folderPath : String) (f : Task → Task) :
    TaskManager :=
  { tasks := m.tasks.map (fun kv => if kv.1 = folderPath then (kv.1, f kv.2) else kv) }

/-- `TaskManager::pause_task`: `Err` when no task is registered, otherwise
pauses the registered task. Returns the result together with the updated
registry state. -/
def TaskManager.pauseTask (m : TaskManager) (folderPath : String) :
    Except String Unit × TaskManager :=
  match m.tasks.lookup folderPath with
  | some _ => (Except.ok (), m.updateTask folderPath Task.pause)
  | none => (Except.error ("Task not found for folder: " ++ folderPath), m)

/-- `TaskManager::resume_task`. -/
def TaskManager.resumeTask (m : TaskManager) (folderPath : String) :
    Except String Unit × TaskManager :=
  match m.tasks.lookup folderPath with
  | some _ => (Except.ok (), m.updateTask folderPath Task.resume)
  | none => (Except.error ("Task not found for folder: " ++ folderPath), m)

/-- `TaskManager::stop_task`. -/
def TaskManager.stopTask (m : TaskManager) (folderPath : String) :
    Except String Unit × TaskManager :=
  match m.tasks.lookup folderPath with
  | some _ => (Except.ok (), m.updateTask folderPath Task.stop)
  | none => (Except.error ("Task not found for folder: " ++ folderPath), m)

/-- `TaskManager::has_running_task`. -/
def TaskManager.hasRunningTask (m : TaskManager) (folderPath : String) : Bool :=
  match m.getTask folderPath with
  | some t =>
      match t.getInfo.status with
      | TaskStatus.running => true
      | TaskStatus.paused => true
      | _ => false
  | none => false

/-- Updating the binding at a key rewrites exactly the looked-up task. -/
theorem lookup_updateTask (l : List (String × Task)) (p : String) (f : Task → Task)
    (t : Task) (h : l.lookup p = some t) :
    (l.map (fun kv => if kv.1 = p then (kv.1, f kv.2) else kv)).lookup p = some (f t) := by
  induction l with
  | nil => simp [List.lookup] at h
  | cons kv rest ih =>
      obtain ⟨k, v⟩ := kv
      by_cases hk : k = p
      · subst hk
        simp only [List.lookup, beq_self_eq_true] at h
        have hv : v = t := Option.some.inj h
        subst hv
        rw [List.map_cons]
        have hhead : (if (k, v).1 = k then ((k, v).1, f (k, v).2) else (k, v)) = (k, f v) := by
          simp
        rw [hhead]
        simp only [List.lookup, beq_self_eq_true]
      · have hb : (p == k) = false := by
          rw [beq_eq_false_iff_ne]
          exact fun he => hk he.symm
        simp only [List.lookup, hb] at h
        rw [List.map_cons]
        have hhead : (if (k, v).1 = p then ((k, v).1, f (k, v).2) else (k, v)) = (k, v) := by
          simp [hk]
        rw [hhead]
        simp only [List.lookup, hb]
        exact ih h

/-! ## Counting increments (claim C7 support) -/

/-- A serialized run of `increment_processed` calls adds exactly its length
to the counter: the per-task lock makes each increment atomic, so no
update is lost. -/
theorem applyTOps_incProcessed_count (l : List TOp) (t : Task)
    (h : ∀ op ∈ l, op = TOp.incProcessed) :
    (applyTOps t l).info.processedFiles = t.info.processedFiles + l.length := by
  induction l generalizing t with
  | nil => simp [applyTOps]
  | cons op rest ih =>
      have hop : op = TOp.incProcessed := h op (List.mem_cons_self op rest)
      subst hop
      have hrest : ∀ o ∈ rest, o = TOp.incProcessed := fun o ho =>
        h o (List.mem_cons_of_mem _ ho)
      have hstep : applyTOps t (TOp.incProcessed :: rest)
          = applyTOps (applyTOp t TOp.incProcessed) rest := rfl
      rw [hstep, ih _ hrest]
      simp [applyTOp, Task.incrementProcessed]
      omega

/-- Concatenating worker schedules of equal length `C`. -/
theorem join_length_of_all_eq (ws : List (List TOp)) (C : Nat)
    (h : ∀ w ∈ ws, w.length = C) : ws.flatten.length = ws.length * C := by
  induction ws with
  | nil => simp
  | cons w rest ih =>
      have hw : w.length = C := h w (by simp)
      have hrest : ∀ w' ∈ rest, w'.length = C := fun w' hw' => h w' (by simp [hw'])
      simp [List.flatten, hw, ih hrest]
      ring

/-! ## Claim theorems for the task layer -/

/-- C2, counterexample: after `stop`, a later `pause` call on the same task
moves the status from `Stopped` to `Paused`, so the status does change
again. -/
theorem c2_stop_then_pause_counterexample :
    ((Task.new "folder" 1).stop.pause).info.status = TaskStatus.paused ∧
    TaskStatus.paused ≠ TaskStatus.stopped := by
  exact ⟨rfl, by decide⟩

/-- C2, amended: immediately after a `stop` call the status is `Stopped`
(whatever came before), and the `should_stop` flag — which is what workers
consult — is never cleared by any later `pause`, `resume`, `stop`,
`complete`, or increment call; only replacing the task with a fresh
`Task::new` (status `Running`, flag clear) escapes it. However, a later
`pause`, `resume`, or `complete` call does overwrite the status field
itself. -/
theorem c2_stop_is_permanent_via_flag (t : Task) (ops : List TOp) (p : String) (n : Nat) :
    (t.stop).info.status = TaskStatus.stopped ∧
    (applyTOps t.stop ops).isStopped = true ∧
    (Task.new p n).isStopped = false ∧
    (Task.new p n).info.status = TaskStatus.running := by
  refine ⟨rfl, ?_, rfl, rfl⟩
  exact applyTOps_shouldStop ops t.stop rfl

/-- C7: any serialization of N workers' C `increment_processed` calls each
(the per-task mutex serializes them into some permutation of the workers'
schedules) yields a final count of exactly N·C, and a snapshot taken at any
point of the serialization reads exactly the increments serialized before
it. -/
theorem c7_no_lost_updates (N C : Nat) (ws : List (List TOp)) (es : List TOp) (t0 : Task)
    (hN : ws.length = N)
    (hw : ∀ w ∈ ws, w.length = C ∧ ∀ op ∈ w, op = TOp.incProcessed)
    (hperm : es.Perm ws.flatten) :
    (applyTOps t0 es).info.processedFiles = t0.info.processedFiles + N * C ∧
    ∀ p q : List TOp, es = p ++ q →
      (applyTOps t0 p).info.processedFiles = t0.info.processedFiles + p.length := by
  have hall : ∀ op ∈ es, op = TOp.incProcessed := by
    intro op hop
    have hj : op ∈ ws.flatten := hperm.mem_iff.mp hop
    obtain ⟨w, hw', hop'⟩ := List.mem_flatten.mp hj
    exact (hw w hw').2 op hop'
  constructor
  · rw [applyTOps_incProcessed_count es t0 hall, hperm.length_eq,
      join_length_of_all_eq ws C (fun w hw' => (hw w hw').1), hN]
  · intro p q hpq
    apply applyTOps_incProcessed_count
    intro op hop
    exact hall op (by rw [hpq]; exact List.mem_append_left q hop)

/-- Witness for C7 at two workers with one increment each. -/
theorem c7_no_lost_updates_witness :
    (applyTOps (Task.new "w" 5) [TOp.incProcessed, TOp.incProcessed]).info.processedFiles
      = (Task.new "w" 5).info.processedFiles + 2 * 1 :=
  (c7_no_lost_updates 2 1 [[TOp.incProcessed], [TOp.incProcessed]]
    [TOp.incProcessed, TOp.incProcessed] (Task.new "w" 5) rfl (by decide) (by decide)).1

/-- C8: `pause_task`, `resume_task`, and `stop_task` fail (with the
task-not-found error, leaving the registry untouched) exactly when no task
is registered under the folder path; when one is registered they return
`Ok` and the registered task is the one acted upon. -/
theorem c8_task_control_not_found (m : TaskManager) (p : String) :
    (m.getTask p = none →
      m.pauseTask p = (Except.error ("Task not found for folder: " ++ p), m) ∧
      m.resumeTask p = (Except.error ("Task not found for folder: " ++ p), m) ∧
      m.stopTask p = (Except.error ("Task not found for folder: " ++ p), m)) ∧
    ∀ t, m.getTask p = some t →
      ((m.pauseTask p).1 = Except.ok () ∧ (m.pauseTask p).2.getTask p = some t.pause) ∧
      ((m.resumeTask p).1 = Except.ok () ∧ (m.resumeTask p).2.getTask p = some t.resume) ∧
      ((m.stopTask p).1 = Except.ok () ∧ (m.stopTask p).2.getTask p = some t.stop) := by
  constructor
  · intro hnone
    have hm : m.tasks.lookup p = none := hnone
    refine ⟨?_, ?_, ?_⟩ <;>
      simp [TaskManager.pauseTask, TaskManager.resumeTask, TaskManager.stopTask, hm]
  · intro t ht
    have hm : m.tasks.lookup p = some t := ht
    have hp := lookup_updateTask m.tasks p Task.pause t hm
    have hr := lookup_updateTask m.tasks p Task.resume t hm
    have hs := lookup_updateTask m.tasks p Task.stop t hm
    refine ⟨⟨?_, ?_⟩, ⟨?_, ?_⟩, ⟨?_, ?_⟩⟩ <;>
      simp [TaskManager.pauseTask, TaskManager.resumeTask, TaskManager.stopTask,
        TaskManager.getTask, TaskManager.updateTask, hm, hp, hr, hs]

/-- Witness for C8: an empty registry rejects `pause_task`, and a registry
holding a task for "a" pauses exactly that task. -/
theorem c8_task_control_not_found_witness :
    TaskManager.new.pauseTask "a"
        = (Except.error ("Task not found for folder: " ++ "a"), TaskManager.new) ∧
    ((TaskManager.new.addTask "a" 3).pauseTask "a").2.getTask "a"
        = some (Task.new "a" 3).pause := by
  constructor
  · exact ((c8_task_control_not_found TaskManager.new "a").1 rfl).1
  · exact (((c8_task_control_not_found (TaskManager.new.addTask "a" 3) "a").2
      (Task.new "a" 3) (by decide)).1).2

/-! ## Completion at individual lock granularity
(`src/src-tauri/src/commands/optimizer.rs` with `task_manager.rs`) -/

/-- The guarded completion check in `optimize_media_file_internal`:
`let info = task.get_info(); if info.processed_files >= info.total_files
{ task.complete(); }`. -/
def completeIfDone (t : Task) : Task :=
  if t.info.totalFiles ≤ t.info.processedFiles then t.complete else t

/-- `applyTOps` distributes over concatenation of traces. -/
theorem applyTOps_append (t : Task) (l1 l2 : List TOp) :
    applyTOps t (l1 ++ l2) = applyTOps (applyTOps t l1) l2 := by
  simp [applyTOps, List.foldl_append]

/-- No task-method call changes the total. -/
theorem applyTOp_totalFiles (t : Task) (op : TOp) :
    (applyTOp t op).info.totalFiles = t.info.totalFiles := by
  cases op <;> rfl

theorem applyTOps_totalFiles (es : List TOp) (t : Task) :
    (applyTOps t es).info.totalFiles = t.info.totalFiles := by
  induction es generalizing t with
  | nil => rfl
  | cons op rest ih =>
      calc (applyTOps (applyTOp t op) rest).info.totalFiles
          = (applyTOp t op).info.totalFiles := ih (applyTOp t op)
        _ = t.info.totalFiles := applyTOp_totalFiles t op

/-- No task-method call decreases the processed counter. -/
theorem applyTOp_processed_mono (t : Task) (op : TOp) :
    t.info.processedFiles ≤ (applyTOp t op).info.processedFiles := by
  cases op <;>
    simp only [applyTOp, Task.pause, Task.resume, Task.stop, Task.complete,
      Task.incrementProcessed, Task.incrementOptimized, Task.incrementFailed] <;>
    omega

theorem applyTOps_processed_mono (es : List TOp) (t : Task) :
    t.info.processedFiles ≤ (applyTOps t es).info.processedFiles := by
  induction es generalizing t with
  | nil => exact Nat.le_refl _
  | cons op rest ih =>
      exact (applyTOp_processed_mono t op).trans (ih (applyTOp t op))

/-- A trace of individual locked `Task` method calls is completion-guarded
when every `complete` event in it lands in a state whose processed count
has reached the total. In the source, `complete()` is invoked
(`optimizer.rs`) only after a `get_info` snapshot showed
`processed_files >= total_files`; `guard_stable` below shows the guard
still holds when the `complete` lands, whatever other method calls
interleave between the snapshot and the `complete` — so every program
execution yields a completion-guarded trace, including those where
`stop_task` lands between a worker's stop gate and its completion
check. -/
def CompletionGuarded (t0 : Task) (es : List TOp) : Prop :=
  ∀ i : Fin es.length, es.get i = TOp.complete →
    (applyTOps t0 (es.take i.val)).info.totalFiles
      ≤ (applyTOps t0 (es.take i.val)).info.processedFiles

instance (t0 : Task) (es : List TOp) : Decidable (CompletionGuarded t0 es) :=
  inferInstanceAs (Decidable (∀ i : Fin es.length, es.get i = TOp.complete →
    (applyTOps t0 (es.take i.val)).info.totalFiles
      ≤ (applyTOps t0 (es.take i.val)).info.processedFiles))

/-- The optimizer's completion guard is stable: once some snapshot shows
`total_files <= processed_files`, every later point of the trace still
satisfies it, because no method decreases `processed_files` or changes
`total_files`. -/
theorem guard_stable (t0 : Task) (p1 p2 : List TOp)
    (h : (applyTOps t0 p1).info.totalFiles ≤ (applyTOps t0 p1).info.processedFiles) :
    (applyTOps t0 (p1 ++ p2)).info.totalFiles
      ≤ (applyTOps t0 (p1 ++ p2)).info.processedFiles := by
  rw [applyTOps_append]
  calc (applyTOps (applyTOps t0 p1) p2).info.totalFiles
      = (applyTOps t0 p1).info.totalFiles := applyTOps_totalFiles p2 _
    _ ≤ (applyTOps t0 p1).info.processedFiles := h
    _ ≤ (applyTOps (applyTOps t0 p1) p2).info.processedFiles :=
        applyTOps_processed_mono p2 _

/-- Indexing into the left part of an appended list. -/
theorem get_append_leftmost {α : Type} (l1 l2 : List α) (i : Nat)
    (h1 : i < l1.length) (h2 : i < (l1 ++ l2).length) :
    (l1 ++ l2).get ⟨i, h2⟩ = l1.get ⟨i, h1⟩ := by
  induction l1 generalizing i with
  | nil => exact absurd h1 (Nat.not_lt_zero i)
  | cons x xs ih =>
      cases i with
      | zero => rfl
      | succ n =>
          exact ih n (Nat.lt_of_succ_lt_succ h1) (Nat.lt_of_succ_lt_succ h2)

/-- Taking at most the left part of an appended list. -/
theorem take_append_leftmost {α : Type} (l1 l2 : List α) (n : Nat)
    (h : n ≤ l1.length) : (l1 ++ l2).take n = l1.take n := by
  induction l1 generalizing n with
  | nil =>
      have hn : n = 0 := Nat.le_zero.mp h
      simp [hn]
  | cons x xs ih =>
      cases n with
      | zero => rfl
      | succ m => simp [List.take_succ_cons, ih m (Nat.le_of_succ_le_succ h)]

/-- The last element of `l ++ [a]`. -/
theorem get_append_length {α : Type} (l : List α) (a : α)
    (h : l.length < (l ++ [a]).length) :
    (l ++ [a]).get ⟨l.length, h⟩ = a := by
  induction l with
  | nil => rfl
  | cons x xs ih => exact ih (by simp)

/-- Safety of the completion guard over any interleaving: when the final
state of a completion-guarded trace is `Completed`, its processed count
has reached its total. -/
theorem completed_le_processed_of_guarded (t0 : Task) (es : List TOp)
    (h0 : t0.info.status = TaskStatus.completed →
      t0.info.totalFiles ≤ t0.info.processedFiles)
    (hg : CompletionGuarded t0 es)
    (hc : (applyTOps t0 es).info.status = TaskStatus.completed) :
    (applyTOps t0 es).info.totalFiles ≤ (applyTOps t0 es).info.processedFiles := by
  revert hg hc
  induction es using List.reverseRecOn with
  | nil =>
      intro hg hc
      exact h0 hc
  | append_singleton es' op ih =>
      intro hg hc
      have hg' : CompletionGuarded t0 es' := by
        intro i hi
        have hlt : i.val < (es' ++ [op]).length := by
          have hisl := i.isLt
          simp only [List.length_append]
          omega
        have hgetl : (es' ++ [op]).get ⟨i.val, hlt⟩ = es'.get i :=
          get_append_leftmost es' [op] i.val i.isLt hlt
        have htake : (es' ++ [op]).take i.val = es'.take i.val :=
          take_append_leftmost es' [op] i.val (Nat.le_of_lt i.isLt)
        have hgi := hg ⟨i.val, hlt⟩ (by rw [hgetl]; exact hi)
        rwa [htake] at hgi
      rw [applyTOps_append] at hc ⊢
      cases op with
      | complete =>
          have hlast : (es' ++ [TOp.complete]).get
              ⟨es'.length, by simp⟩ = TOp.complete :=
            get_append_length es' TOp.complete (by simp)
          have htake : (es' ++ [TOp.complete]).take es'.length = es' := by
            rw [take_append_leftmost es' [TOp.complete] es'.length (Nat.le_refl _),
              List.take_length]
          have hguard := hg ⟨es'.length, by simp⟩ hlast
          rw [htake] at hguard
          simpa [applyTOps, applyTOp, Task.complete] using hguard
      | pause => simp [applyTOps, applyTOp, Task.pause] at hc
      | resume => simp [applyTOps, applyTOp, Task.resume] at hc
      | stop => simp [applyTOps, applyTOp, Task.stop] at hc
      | incProcessed =>
          have hstat : (applyTOps t0 es').info.status = TaskStatus.completed := by
            simpa [applyTOps, applyTOp, Task.incrementProcessed] using hc
          have hle := ih hg' hstat
          simp only [applyTOps, List.foldl, applyTOp,
            Task.incrementProcessed] at hle ⊢
          omega
      | incOptimized =>
          have hstat : (applyTOps t0 es').info.status = TaskStatus.completed := by
            simpa [applyTOps, applyTOp, Task.incrementOptimized] using hc
          have hle := ih hg' hstat
          simp only [applyTOps, List.foldl, applyTOp,
            Task.incrementOptimized] at hle ⊢
          omega
      | incFailed =>
          have hstat : (applyTOps t0 es').info.status = TaskStatus.completed := by
            simpa [applyTOps, applyTOp, Task.incrementFailed] using hc
          have hle := ih hg' hstat
          simp only [applyTOps, List.foldl, applyTOp,
            Task.incrementFailed] at hle ⊢
          omega

/-- A completion-guarded trace may contain a `stop` before the `complete`
and still end `Completed`: when `stop_task` lands between a worker's stop
gate and its completion check, the later `complete()` overwrites
`Stopped`. This is why the amended C6 does not keep the original claim's
"stop was never called" conjunct. -/
theorem guarded_trace_with_stop_completes :
    CompletionGuarded (Task.new "f" 1)
        [TOp.incProcessed, TOp.stop, TOp.complete] ∧
    (applyTOps (Task.new "f" 1)
        [TOp.incProcessed, TOp.stop, TOp.complete]).info.status
      = TaskStatus.completed := by
  exact ⟨by decide, by decide⟩

/-- C6 (amended): at the granularity of individual locked `Task` method
calls, arbitrarily interleaved with shell control calls, every `complete`
the optimizer issues is guarded by its `processed >= total` snapshot
(the guard is stable under interleaving, `guard_stable`), and under that
guard a task is never `Completed` while `processedFiles < totalFiles`.
The rest of the original claim fails on the code: reaching the total
through a failed file does not complete the task (the counterexample),
and `Completed` does not imply stop was never called, since a `stop`
landing between a worker's stop gate and its completion check is
overwritten by `complete` (`guarded_trace_with_stop_completes`). -/
theorem c6_never_completed_below_total (p : String) (n : Nat) (es : List TOp)
    (hg : CompletionGuarded (Task.new p n) es)
    (hc : (applyTOps (Task.new p n) es).info.status = TaskStatus.completed) :
    n ≤ (applyTOps (Task.new p n) es).info.processedFiles := by
  have h0 : (Task.new p n).info.status = TaskStatus.completed →
      (Task.new p n).info.totalFiles ≤ (Task.new p n).info.processedFiles := by
    intro hx
    simp [Task.new] at hx
  have hle := completed_le_processed_of_guarded (Task.new p n) es h0 hg hc
  have htot : (applyTOps (Task.new p n) es).info.totalFiles = n :=
    applyTOps_totalFiles es (Task.new p n)
  omega

/-- Witness for C6 (amended): a worker that counts its one file and then
completes under the guard. -/
theorem c6_never_completed_below_total_witness :
    1 ≤ (applyTOps (Task.new "f" 1)
        [TOp.incProcessed, TOp.complete]).info.processedFiles :=
  c6_never_completed_below_total "f" 1 [TOp.incProcessed, TOp.complete]
    (by decide) (by decide)


/-! ## Filesystem view -/

/-- The filesystem as the code observes it: the existing paths with their
byte sizes (`Path::exists`, `fs::metadata().len()`). -/
structure Fs where
  files : List (String × Int)
deriving Repr

/-- `Path::new(p).exists()`. -/
def Fs.hasPath (fs : Fs) (p : String) : Bool :=
  (fs.files.lookup p).isSome

/-- `fs::metadata(p).len()`, failing when the path does not exist. -/
def Fs.metadataLen (fs : Fs) (p : String) : Option Int :=
  fs.files.lookup p

/-- Writing a file (newest binding shadows any older one). -/
def Fs.write (fs : Fs) (p : String) (size : Int) : Fs :=
  { files := (p, size) :: fs.files }

/-! ## Persistent store (`src/src-tauri/src/db.rs`) -/

/-- One row of `library_folders` (timestamps and `total_files` are not
needed by any claim and are not modelled). -/
structure LibraryFolder where
  id : Int
  path : String
  folderHash : String
deriving DecidableEq, Repr

/-- One row of `cache_entries` (the `created_at` column is not modelled). -/
structure CacheEntry where
  folderId : Int
  originalPath : String
  fileHash : String
  cachedPath : String
  mediaType : String
  fileSize : Int
  cachedSize : Int
deriving DecidableEq, Repr

/-- The SQLite store of `Database`. List order models row order. -/
structure Db where
  folders : List LibraryFolder
  entries : List CacheEntry
deriving DecidableEq, Repr

/-- `Database::get_folder_id`: `SELECT id FROM library_folders WHERE path = ?1`,
first row if any. -/
def Db.get_folder_id (db : Db) (path : String) : Option Int :=
  ((db.folders.filter (fun f => f.path == path)).map LibraryFolder.id).head?

/-- `Database::add_cache_entry`: `INSERT OR REPLACE INTO cache_entries ...`.
Under the `UNIQUE(folder_id, file_hash)` constraint of `init_schema`, a
conflicting row is deleted and the new row is inserted (with a fresh id,
so it lands at the end in row order). -/
def Db.add_cache_entry (db : Db) (folderId : Int)
    (originalPath fileHash cachedPath mediaType : String)
    (fileSize cachedSize : Int) : Db :=
  let keep := db.entries.filter
    (fun e => !(e.folderId == folderId && e.fileHash == fileHash))
  let row : CacheEntry :=
    { folderId := folderId, originalPath := originalPath, fileHash := fileHash,
      cachedPath := cachedPath, mediaType := mediaType,
      fileSize := fileSize, cachedSize := cachedSize }
  { db with entries := keep ++ [row] }

/-- `Database::get_cached_path`: `SELECT cached_path FROM cache_entries
WHERE file_hash = ?1`, first row if any. -/
def Db.get_cached_path (db : Db) (fileHash : String) : Option String :=
  ((db.entries.filter (fun e => e.fileHash == fileHash)).map CacheEntry.cachedPath).head?

/-- `Database::check_file_exists`: collects the `original_path` of every
entry with the hash, checks them against the disk, and — only when there
were entries and none of their paths exists — deletes every entry with the
hash before returning the verdict. -/
def Db.check_file_exists (db : Db) (fs : Fs) (fileHash : String) : Bool × Db :=
  let paths := (db.entries.filter (fun e => e.fileHash == fileHash)).map
    CacheEntry.originalPath
  let foundExisting := paths.any (fun p => fs.hasPath p)
  if !paths.isEmpty && !foundExisting then
    (foundExisting,
      { db with entries := db.entries.filter (fun e => !(e.fileHash == fileHash)) })
  else
    (foundExisting, db)

/-- `Database::remove_library_folder`: the `SELECT ... JOIN` enumerates, in
row order, the cache entries whose folder row matches the path, and the
`DELETE FROM library_folders WHERE path = ?1` removes the folder row.
The schema declares `ON DELETE CASCADE`, but the connection opened in
`Database::new` never executes `PRAGMA foreign_keys=ON`, and SQLite keeps
foreign-key enforcement — and with it cascading deletes — off by default,
so only the folder row is deleted and the folder's cache-entry rows
survive. -/
def Db.remove_library_folder (db : Db) (path : String) :
    (List String × List String) × Db :=
  let sel := db.entries.filter
    (fun e => (db.folders.find? (fun f => f.id == e.folderId && f.path == path)).isSome)
  let cachedPaths := sel.map CacheEntry.cachedPath
  let hashes := sel.map CacheEntry.fileHash
  ((cachedPaths, hashes),
    { db with folders := db.folders.filter (fun f => !(f.path == path)) })

/-- Filtering by a predicate after filtering by its negation leaves
nothing. -/
theorem filter_not_filter {α : Type} (l : List α) (p : α → Bool) :
    (l.filter (fun e => !(p e))).filter p = [] := by
  induction l with
  | nil => rfl
  | cons a l ih => cases hp : p a <;> simp [List.filter_cons, hp, ih]

/-- A store with no entry for the hash: `check_file_exists` reports false
and writes nothing. -/
theorem check_file_exists_of_no_entry (db : Db) (fs : Fs) (h : String)
    (hempty : db.entries.filter (fun e => e.fileHash == h) = []) :
    db.check_file_exists fs h = (false, db) := by
  simp [Db.check_file_exists, hempty]

/-- C10: looking up a hash with no cache entries at all reads only: it
returns false and leaves the store completely unchanged, because the
stale-entry DELETE is guarded by the entry list being nonempty. -/
theorem c10_unknown_hash_no_write (db : Db) (fs : Fs) (h : String)
    (hempty : db.entries.filter (fun e => e.fileHash == h) = []) :
    db.check_file_exists fs h = (false, db) :=
  check_file_exists_of_no_entry db fs h hempty

/-- Witness for C10 on an empty store. -/
theorem c10_unknown_hash_no_write_witness :
    (Db.mk [] []).check_file_exists (Fs.mk []) "deadbeef" = (false, Db.mk [] []) :=
  c10_unknown_hash_no_write (Db.mk [] []) (Fs.mk []) "deadbeef" rfl

/-- C3: `check_file_exists` is self-healing. For a hash that has entries:
if none of the recorded original paths exists on disk, the call deletes
every entry with that hash and returns false, the purged store has no
entry left for the hash, and a second call on the purged store still
returns false without re-creating anything; if at least one recorded path
exists, the call returns true and deletes nothing. -/
theorem c3_file_exists_self_healing (db : Db) (fs : Fs) (h : String)
    (hne : db.entries.filter (fun e => e.fileHash == h) ≠ []) :
    ((∀ e ∈ db.entries, e.fileHash = h → fs.hasPath e.originalPath = false) →
      db.check_file_exists fs h
          = (false,
             { db with entries := db.entries.filter (fun e => !(e.fileHash == h)) }) ∧
      ({ db with entries := db.entries.filter (fun e => !(e.fileHash == h)) }
          : Db).entries.filter (fun e => e.fileHash == h) = [] ∧
      ({ db with entries := db.entries.filter (fun e => !(e.fileHash == h)) }
          : Db).check_file_exists fs h
          = (false,
             { db with entries := db.entries.filter (fun e => !(e.fileHash == h)) })) ∧
    ((∃ e ∈ db.entries, e.fileHash = h ∧ fs.hasPath e.originalPath = true) →
      db.check_file_exists fs h = (true, db)) := by
  constructor
  · intro hall
    have hpurged : ({ db with
          entries := db.entries.filter (fun e => !(e.fileHash == h)) }
        : Db).entries.filter (fun e => e.fileHash == h) = [] :=
      filter_not_filter db.entries (fun e => e.fileHash == h)
    refine ⟨?_, hpurged, check_file_exists_of_no_entry _ fs h hpurged⟩
    have hany : ((db.entries.filter (fun e => e.fileHash == h)).map
        CacheEntry.originalPath).any (fun p => fs.hasPath p) = false := by
      rw [List.any_eq_false]
      intro p hp
      obtain ⟨e, he, rfl⟩ := List.mem_map.mp hp
      obtain ⟨hmem, hh⟩ := List.mem_filter.mp he
      have hfh : e.fileHash = h := by simpa using hh
      simp [hall e hmem hfh]
    have hmapne : (db.entries.filter (fun e => e.fileHash == h)).map
        CacheEntry.originalPath ≠ [] := by
      intro hx
      exact hne (List.map_eq_nil_iff.mp hx)
    have hisEmpty : ((db.entries.filter (fun e => e.fileHash == h)).map
        CacheEntry.originalPath).isEmpty = false := by
      cases hq : (db.entries.filter (fun e => e.fileHash == h)).map
          CacheEntry.originalPath with
      | nil => exact absurd hq hmapne
      | cons a l => rfl
    simp [Db.check_file_exists, hany, hisEmpty]
  · rintro ⟨e, hmem, hfh, hpath⟩
    have hmemf : e ∈ db.entries.filter (fun e => e.fileHash == h) :=
      List.mem_filter.mpr ⟨hmem, by simp [hfh]⟩
    have hmemp : e.originalPath ∈ (db.entries.filter
        (fun e => e.fileHash == h)).map CacheEntry.originalPath :=
      List.mem_map.mpr ⟨e, hmemf, rfl⟩
    have hany : ((db.entries.filter (fun e => e.fileHash == h)).map
        CacheEntry.originalPath).any (fun p => fs.hasPath p) = true :=
      List.any_eq_true.mpr ⟨e.originalPath, hmemp, hpath⟩
    simp [Db.check_file_exists, hany]

/-- A concrete cache entry used by the C3 witness. -/
def eC3 : CacheEntry :=
  { folderId := 1, originalPath := "/orig/x.jpg", fileHash := "HX",
    cachedPath := "/cache/x.webp", mediaType := "image",
    fileSize := 10, cachedSize := 5 }

/-- Witness for C3: with the original file gone the entry is purged and
the verdict is false; with the original file present the verdict is true
and nothing is deleted. -/
theorem c3_file_exists_self_healing_witness :
    (Db.mk [] [eC3]).check_file_exists (Fs.mk []) "HX"
        = (false, { Db.mk [] [eC3] with
            entries := (Db.mk [] [eC3]).entries.filter
              (fun e => !(e.fileHash == "HX")) }) ∧
    (Db.mk [] [eC3]).check_file_exists (Fs.mk [("/orig/x.jpg", 10)]) "HX"
        = (true, Db.mk [] [eC3]) := by
  constructor
  · exact ((c3_file_exists_self_healing (Db.mk [] [eC3]) (Fs.mk []) "HX"
      (by decide)).1 (by decide)).1
  · exact (c3_file_exists_self_healing (Db.mk [] [eC3])
      (Fs.mk [("/orig/x.jpg", 10)]) "HX" (by decide)).2
      ⟨eC3, by decide, by decide, by decide⟩

/-- C5: the `(folderId, fileHash)` upsert key. Adding twice under the same
key leaves exactly one entry for that key — the last one written — while
adding the same hash under two different folder ids keeps both rows. -/
theorem c5_upsert_key_unique (db : Db) (fid fid2 : Int)
    (h op1 cp1 mt1 op2 cp2 mt2 : String) (s1 c1 s2 c2 : Int) (hne : fid ≠ fid2) :
    (((db.add_cache_entry fid op1 h cp1 mt1 s1 c1).add_cache_entry
        fid op2 h cp2 mt2 s2 c2).entries.filter
          (fun e => e.folderId == fid && e.fileHash == h))
      = [{ folderId := fid, originalPath := op2, fileHash := h, cachedPath := cp2,
           mediaType := mt2, fileSize := s2, cachedSize := c2 }] ∧
    ({ folderId := fid, originalPath := op1, fileHash := h, cachedPath := cp1,
       mediaType := mt1, fileSize := s1, cachedSize := c1 }
      ∈ ((db.add_cache_entry fid op1 h cp1 mt1 s1 c1).add_cache_entry
          fid2 op2 h cp2 mt2 s2 c2).entries) ∧
    ({ folderId := fid2, originalPath := op2, fileHash := h, cachedPath := cp2,
       mediaType := mt2, fileSize := s2, cachedSize := c2 }
      ∈ ((db.add_cache_entry fid op1 h cp1 mt1 s1 c1).add_cache_entry
          fid2 op2 h cp2 mt2 s2 c2).entries) := by
  refine ⟨?_, ?_, ?_⟩
  · simp only [Db.add_cache_entry, List.filter_append,
      filter_not_filter]
    simp
  · simp only [Db.add_cache_entry, List.mem_append]
    left
    apply List.mem_filter.mpr
    constructor
    · simp
    · simp [hne]
  · simp [Db.add_cache_entry]

/-- Witness for C5 on an empty store with folder ids 1 and 2. -/
theorem c5_upsert_key_unique_witness :
    (((Db.mk [] []).add_cache_entry 1 "/a" "H" "/c1" "image" 1 1).add_cache_entry
        1 "/b" "H" "/c2" "image" 2 2).entries.filter
          (fun e => e.folderId == 1 && e.fileHash == "H")
      = [{ folderId := 1, originalPath := "/b", fileHash := "H", cachedPath := "/c2",
           mediaType := "image", fileSize := 2, cachedSize := 2 }] ∧
    ({ folderId := 1, originalPath := "/a", fileHash := "H", cachedPath := "/c1",
       mediaType := "image", fileSize := 1, cachedSize := 1 }
      ∈ (((Db.mk [] []).add_cache_entry 1 "/a" "H" "/c1" "image" 1 1).add_cache_entry
          2 "/b" "H" "/c2" "image" 2 2).entries) := by
  constructor
  · exact (c5_upsert_key_unique (Db.mk [] []) 1 2 "H" "/a" "/c1" "image"
      "/b" "/c2" "image" 1 1 2 2 (by decide)).1
  · exact (c5_upsert_key_unique (Db.mk [] []) 1 2 "H" "/a" "/c1" "image"
      "/b" "/c2" "image" 1 1 2 2 (by decide)).2.1

/-- Folder rows and cache entries for the C4 store. -/
def folderA : LibraryFolder := { id := 1, path := "/a", folderHash := "ha" }

def folderB : LibraryFolder := { id := 2, path := "/b", folderHash := "hb" }

def entryA : CacheEntry :=
  { folderId := 1, originalPath := "/a/p.jpg", fileHash := "HA",
    cachedPath := "/cache/aa.webp", mediaType := "image",
    fileSize := 4, cachedSize := 2 }

def entryB : CacheEntry :=
  { folderId := 2, originalPath := "/b/q.jpg", fileHash := "HB",
    cachedPath := "/cache/bb.webp", mediaType := "image",
    fileSize := 6, cachedSize := 3 }

/-- The C4 store: two registered folders, one cache entry each. -/
def dbC4 : Db := { folders := [folderA, folderB], entries := [entryA, entryB] }

/-- C4: `remove_library_folder "/a"` returns exactly folder A's
`(cachedPath, hash)` pairs, deletes the folder row, and leaves folder B's
entry untouched — but, contrary to the claim and to the code's own comment
"cascade will delete cache entries", folder A's cache-entry row also
survives: `Database::new` never executes `PRAGMA foreign_keys=ON`, so the
`ON DELETE CASCADE` declared in the schema is not enforced by SQLite. -/
theorem c4_remove_folder_no_cascade :
    (dbC4.remove_library_folder "/a").1 = (["/cache/aa.webp"], ["HA"]) ∧
    (dbC4.remove_library_folder "/a").2.folders = [folderB] ∧
    entryA ∈ (dbC4.remove_library_folder "/a").2.entries ∧
    entryB ∈ (dbC4.remove_library_folder "/a").2.entries := by
  refine ⟨?_, ?_, ?_, ?_⟩ <;> decide

/-! ## Optimizer (`src/src-tauri/src/commands/optimizer.rs`,
`src/src-tauri/src/utils/hash.rs`, `src/src-tauri/src/config.rs`) -/

/-- `short_hash` from `utils/hash.rs`: the first 16 characters of the full
hex hash. -/
def short_hash (fullHash : String) : String :=
  fullHash.take 16

/-- An image as the `image` crate exposes it to `optimize_image`: its
pixel dimensions. -/
structure Image where
  width : Nat
  height : Nat
deriving DecidableEq, Repr

/-- External collaborators used by the optimizer, black boxes at their
interface (spec §1): image decoding, the resampling filter, the size of
the encoded WebP output, and the external ffmpeg encoder. -/
structure Ext where
  decodeImage : String → Option Image
  resizeFit : Image → Nat → Image
  webpLen : Image → Nat → Int
  ffmpegInstalled : Bool
  ffmpegRun : String → Nat → Option Int

/-- The distinct `anyhow` error construction sites of the optimizer, as a
closed error type. -/
inductive OptError where
  | ioError
  | libraryFolderRemoved
  | taskStopped
  | ffmpegNotFound
  | ffmpegFailed
  | unsupportedMediaType (mt : String)
  | folderNotRegistered
deriving DecidableEq, Repr

/-- `Config` from `config.rs`, as consumed by the optimizer. -/
structure Config where
  libraryFolders : List String
  cacheFolder : String
  optimizationQuality : Nat
  maxResolution : Nat
deriving Repr

/-- `optimize_image`: decodes the source, resizes only when a dimension
exceeds `max_resolution`, writes `output_dir/{short_hash}.webp`, and
returns the output path, its byte size, and the filesystem after the
write. -/
def optimize_image (ext : Ext) (fs : Fs) (sourcePath outputDir fileHash : String)
    (quality maxResolution : Nat) : Except OptError (String × Int × Fs) :=
  match ext.decodeImage sourcePath with
  | none => Except.error OptError.ioError
  | some img =>
    let optimized :=
      if maxResolution < img.width || maxResolution < img.height
      then ext.resizeFit img maxResolution else img
    let shortName := short_hash fileHash
    let outputPath := outputDir ++ "/" ++ shortName ++ ".webp"
    let fileSize := ext.webpLen optimized quality
    Except.ok (outputPath, fileSize, fs.write outputPath fileSize)

/-- `optimize_video`: computes `output_dir/{short_hash}.mp4` and invokes
the external ffmpeg with the scale filter; fails with the missing-encoder
error when the binary cannot be found and the encoder-failed error when
it exits non-zero. -/
def optimize_video (ext : Ext) (fs : Fs) (sourcePath outputDir fileHash : String)
    (maxResolution : Nat) : Except OptError (String × Int × Fs) :=
  let outputPath := outputDir ++ "/" ++ short_hash fileHash ++ ".mp4"
  if ext.ffmpegInstalled then
    match ext.ffmpegRun sourcePath maxResolution with
    | some size => Except.ok (outputPath, size, fs.write outputPath size)
    | none => Except.error OptError.ffmpegFailed
  else Except.error OptError.ffmpegNotFound

/-- All state `optimize_media_file_internal` touches. -/
structure World where
  config : Config
  db : Db
  fs : Fs
  mgr : TaskManager

/-- Outcome of one `optimize_media_file_internal` call. `blocked` stands
for the pause spin-loop (`while task.is_paused() && !task.is_stopped()`),
which in a sequential embedding never exits. -/
inductive OptOut where
  | ok (cachedPath : String)
  | err (e : OptError)
  | blocked
deriving DecidableEq, Repr

/-- The registration tail of `optimize_media_file_internal` after a
successful transform: look up the folder id (error when the folder is not
registered in the store), read the source size, record the cache entry,
count the file as optimized, and run the completion check. -/
def finishOptimize (w : World) (folderPath filePath fileHash mediaType outputPath : String)
    (cachedSize : Int) : OptOut × World × Bool :=
  match w.db.get_folder_id folderPath with
  | none => (OptOut.err OptError.folderNotRegistered, w, true)
  | some folderId =>
    match w.fs.metadataLen filePath with
    | none => (OptOut.err OptError.ioError, w, true)
    | some originalSize =>
      let db2 := w.db.add_cache_entry folderId filePath fileHash outputPath
        mediaType originalSize cachedSize
      let mgr2 := w.mgr.updateTask folderPath
        (fun t => completeIfDone t.incrementOptimized)
      let w2 : World := { w with db := db2, mgr := mgr2 }
      (OptOut.ok outputPath, w2, true)

/-- `optimize_media_file_internal`, with the config, store, filesystem and
task registry passed explicitly. Returns the outcome, the updated state,
and whether the image/video transform was dispatched. -/
def optimize_media_file_internal (ext : Ext) (w : World)
    (folderPath filePath fileHash mediaType : String) : OptOut × World × Bool :=
  if !(w.config.libraryFolders.contains folderPath) then
    (OptOut.err OptError.libraryFolderRemoved, w, false)
  else
    let mgrStopped := w.mgr.updateTask folderPath
      (fun t => t.incrementProcessed.incrementFailed)
    let gate : Option (OptOut × World × Bool) :=
      match w.mgr.getTask folderPath with
      | some task =>
        if task.isStopped then
          some (OptOut.err OptError.taskStopped, { w with mgr := mgrStopped }, false)
        else if task.isPaused then some (OptOut.blocked, w, false)
        else none
      | none => none
    match gate with
    | some r => r
    | none =>
      let optimizedDir := w.config.cacheFolder ++ "/optimized"
      let hit : Option String :=
        match w.db.get_cached_path fileHash with
        | some cachedPath => if w.fs.hasPath cachedPath then some cachedPath else none
        | none => none
      let mgrHit := w.mgr.updateTask folderPath
        (fun t => completeIfDone (t.incrementProcessed.incrementOptimized))
      match hit with
      | some cachedPath =>
          (OptOut.ok cachedPath, { w with mgr := mgrHit }, false)
      | none =>
        let w1 : World :=
          { w with mgr := w.mgr.updateTask folderPath Task.incrementProcessed }
        match mediaType with
        | "image" =>
            (match optimize_image ext w1.fs filePath optimizedDir fileHash
                w.config.optimizationQuality w.config.maxResolution with
             | Except.error e => (OptOut.err e, w1, true)
             | Except.ok (outputPath, cachedSize, fs2) =>
                 finishOptimize { w1 with fs := fs2 } folderPath filePath fileHash
                   mediaType outputPath cachedSize)
        | "video" =>
            (match optimize_video ext w1.fs filePath optimizedDir fileHash
                w.config.maxResolution with
             | Except.error e => (OptOut.err e, w1, true)
             | Except.ok (outputPath, cachedSize, fs2) =>
                 finishOptimize { w1 with fs := fs2 } folderPath filePath fileHash
                   mediaType outputPath cachedSize)
        | _ => (OptOut.err (OptError.unsupportedMediaType mediaType), w1, false)

/-- C1: when the folder is still registered and the task gate passes, a
hash whose `get_cached_path` lookup resolves to a path existing on disk
makes `optimize_media_file_internal` short-circuit: it returns exactly that
path and never dispatches the image/video transform; and the output path
of `optimize_image` / `optimize_video` is a pure function of the content
hash and output directory — `outDir/{short_hash}.webp` resp.
`outDir/{short_hash}.mp4` — so re-optimizing identical content yields the
same derivative path. -/
theorem c1_content_addressed_idempotent
    (ext : Ext) (w : World) (folderPath filePath fileHash mediaType cachedPath : String)
    (hfolder : w.config.libraryFolders.contains folderPath = true)
    (hgate : ∀ t, w.mgr.getTask folderPath = some t →
      t.isStopped = false ∧ t.isPaused = false)
    (hcached : w.db.get_cached_path fileHash = some cachedPath)
    (hdisk : w.fs.hasPath cachedPath = true) :
    ((optimize_media_file_internal ext w folderPath filePath fileHash mediaType).1
        = OptOut.ok cachedPath ∧
     (optimize_media_file_internal ext w folderPath filePath fileHash mediaType).2.2
        = false) ∧
    (∀ (fs : Fs) (src dir : String) (q m : Nat) (p : String) (sz : Int) (fs2 : Fs),
      optimize_image ext fs src dir fileHash q m = Except.ok (p, sz, fs2) →
        p = dir ++ "/" ++ short_hash fileHash ++ ".webp") ∧
    (∀ (fs : Fs) (src dir : String) (m : Nat) (p : String) (sz : Int) (fs2 : Fs),
      optimize_video ext fs src dir fileHash m = Except.ok (p, sz, fs2) →
        p = dir ++ "/" ++ short_hash fileHash ++ ".mp4") := by
  have hmem : folderPath ∈ w.config.libraryFolders := by simpa using hfolder
  refine ⟨⟨?_, ?_⟩, ?_, ?_⟩
  · cases hm : w.mgr.getTask folderPath with
    | none => simp [optimize_media_file_internal, hmem, hm, hcached, hdisk]
    | some t =>
        obtain ⟨hstop, hpause⟩ := hgate t hm
        simp [optimize_media_file_internal, hmem, hm, hstop, hpause, hcached, hdisk]
  · cases hm : w.mgr.getTask folderPath with
    | none => simp [optimize_media_file_internal, hmem, hm, hcached, hdisk]
    | some t =>
        obtain ⟨hstop, hpause⟩ := hgate t hm
        simp [optimize_media_file_internal, hmem, hm, hstop, hpause, hcached, hdisk]
  · intro fs src dir q m p sz fs2 hok
    cases hd : ext.decodeImage src with
    | none => simp [optimize_image, hd] at hok
    | some img =>
        simp [optimize_image, hd] at hok
        exact hok.1.symm
  · intro fs src dir m p sz fs2 hok
    by_cases hi : ext.ffmpegInstalled = true
    · cases hr : ext.ffmpegRun src m with
      | none => simp [optimize_video, hi, hr] at hok
      | some size =>
          simp [optimize_video, hi, hr] at hok
          exact hok.1.symm
    · simp [optimize_video, hi] at hok

/-- External collaborators for the C1 witness (never reached: the call
short-circuits before any transform). -/
def extW : Ext :=
  { decodeImage := fun _ => none
    resizeFit := fun i _ => i
    webpLen := fun _ _ => 0
    ffmpegInstalled := false
    ffmpegRun := fun _ _ => none }

/-- The cache entry backing the C1 witness. -/
def entryC1 : CacheEntry :=
  { folderId := 1, originalPath := "/lib/a.jpg", fileHash := "H1",
    cachedPath := "/co/x.webp", mediaType := "image",
    fileSize := 3, cachedSize := 1 }

/-- The C1 witness world: the folder is registered, the store maps hash
`H1` to `/co/x.webp`, and that derivative exists on disk. -/
def wC1 : World :=
  { config :=
      { libraryFolders := ["/lib"], cacheFolder := "/cache",
        optimizationQuality := 85, maxResolution := 1920 }
    db := Db.mk [] [entryC1]
    fs := Fs.mk [("/co/x.webp", 1)]
    mgr := TaskManager.new }

/-- Witness for C1: the second optimization of content `H1` returns the
cached derivative and does not dispatch a transform. -/
theorem c1_content_addressed_idempotent_witness :
    (optimize_media_file_internal extW wC1 "/lib" "/lib/a.jpg" "H1" "image").1
        = OptOut.ok "/co/x.webp" ∧
    (optimize_media_file_internal extW wC1 "/lib" "/lib/a.jpg" "H1" "image").2.2
        = false :=
  (c1_content_addressed_idempotent extW wC1 "/lib" "/lib/a.jpg" "H1" "image" "/co/x.webp"
    (by decide) (fun t ht => Option.noConfusion ht) (by decide) (by decide)).1

/-- The `optimize_media_file` command wrapper: on an error from the
internal function it counts the file as failed — unless the task was
already stopped (then the stop gate inside already counted it). -/
def optimize_media_file (ext : Ext) (w : World)
    (folderPath filePath fileHash mediaType : String) : OptOut × World × Bool :=
  match optimize_media_file_internal ext w folderPath filePath fileHash mediaType with
  | (OptOut.err e, w1, d) =>
      let mgr2 : TaskManager :=
        match w1.mgr.getTask folderPath with
        | some task =>
            if task.isStopped then w1.mgr
            else w1.mgr.updateTask folderPath Task.incrementFailed
        | none => w1.mgr
      (OptOut.err e, { w1 with mgr := mgr2 }, d)
  | r => r

/-- The C6 counterexample world: the folder is registered with a
one-file task running for it, the store has no entry for the hash, and
the image decode fails. -/
def wC6 : World :=
  { config :=
      { libraryFolders := ["/lib"], cacheFolder := "/cache",
        optimizationQuality := 85, maxResolution := 1920 }
    db := Db.mk [] []
    fs := Fs.mk []
    mgr := TaskManager.new.addTask "/lib" 1 }

/-- The task state after the C6 counterexample run. -/
def tC6 : Task :=
  { info :=
      { folderPath := "/lib", totalFiles := 1, processedFiles := 1,
        optimizedFiles := 0, failedFiles := 1, status := TaskStatus.running }
    shouldPause := false
    shouldStop := false }

/-- C6, counterexample: a one-file batch whose only file fails to
optimize (the image decode errors after the processed counter was
incremented) leaves the task with `processedFiles = totalFiles = 1`,
`stop` never called (`should_stop` still clear), yet status `Running`,
never `Completed` — the failure path of `optimize_media_file` performs no
completion check, so the claim's "iff" fails right-to-left. -/
theorem c6_failed_file_counterexample :
    (optimize_media_file extW wC6 "/lib" "/lib/a.jpg" "H" "image").2.1.mgr.getTask
        "/lib" = some tC6 ∧
    tC6.info.status = TaskStatus.running ∧
    tC6.info.totalFiles ≤ tC6.info.processedFiles ∧
    tC6.isStopped = false ∧
    TaskStatus.running ≠ TaskStatus.completed := by
  refine ⟨by decide, by decide, by decide, by decide, by decide⟩

/-! ## Media model and scanner (`src/src-tauri/src/models/media.rs`,
`src/src-tauri/src/commands/scanner.rs`) -/

/-- `MediaType` from `models/media.rs`. -/
inductive MediaType where
  | image
  | video
deriving DecidableEq, Repr

/-- `MediaFile` from `models/media.rs`; `chrono` timestamps are modelled
as integers. -/
structure MediaFile where
  id : Int
  filePath : String
  fileHash : String
  fileSize : Int
  width : Int
  height : Int
  takenAt : Option Int
  modifiedAt : Int
  thumbnailPath : Option String
  mediaType : MediaType
  createdAt : Int
deriving DecidableEq, Repr

/-- `IMAGE_EXTENSIONS` from `models/media.rs`. -/
def IMAGE_EXTENSIONS : List String :=
  ["jpg", "jpeg", "png", "gif", "webp", "heic", "heif"]

/-- `VIDEO_EXTENSIONS` from `models/media.rs`. -/
def VIDEO_EXTENSIONS : List String :=
  ["mp4", "mov", "avi", "mkv", "webm", "m4v"]

/-- `std::path::Path::extension` for the paths handled here: the part of
the final path component after its last dot; none when the name has no
embedded dot (a leading dot of a hidden file does not count). -/
def pathExtension (path : String) : Option String :=
  let name := (path.data.reverse.takeWhile (fun c => c ≠ '/')).reverse
  match name with
  | [] => none
  | _ :: rest =>
    if rest.contains '.' then
      some (String.mk ((name.reverse.takeWhile (fun c => c ≠ '.')).reverse))
    else none

/-- `is_media_file` from `models/media.rs`: classify by lower-cased
extension against the static tables. -/
def is_media_file (path : String) : Option MediaType :=
  match pathExtension path with
  | none => none
  | some e =>
    let ext := String.mk (e.data.map Char.toLower)
    if IMAGE_EXTENSIONS.contains ext then some MediaType.image
    else if VIDEO_EXTENSIONS.contains ext then some MediaType.video
    else none

/-- `MediaFile::new`: zero id, and `Utc::now()` — the explicit `now`
argument here — stamped into both `modified_at` (which the caller then
overwrites) and `created_at`. -/
def MediaFile.new (now : Int) (filePath fileHash : String) (fileSize : Int)
    (width height : Int) (mediaType : MediaType) : MediaFile :=
  { id := 0, filePath := filePath, fileHash := fileHash, fileSize := fileSize,
    width := width, height := height, takenAt := none, modifiedAt := now,
    thumbnailPath := none, mediaType := mediaType, createdAt := now }

/-- What the filesystem, hasher and probes provide for one file — the file
bytes and metadata abstracted to the values the scanner reads.
`metadata` carries `(len, modified-time)` and is `none` on an I/O error;
`hashResult` is the deterministic BLAKE3 hex hash of the bytes (`none`
when reading fails); `imageDims` and `exifDate` are the results of the
external probe collaborators (spec §1 treats them as pure functions of
the file). -/
structure FileInput where
  path : String
  metadata : Option (Int × Int)
  hashResult : Option String
  imageDims : Option (Nat × Nat)
  exifDate : Option Int
deriving DecidableEq, Repr

/-- `process_media_file` from `scanner.rs`, with the wall-clock instant
`now` of the call (read by `Utc::now()` inside `MediaFile::new`) passed
explicitly. -/
def process_media_file (now : Int) (f : FileInput) : Option MediaFile :=
  match is_media_file f.path with
  | none => none
  | some mediaType =>
    match f.metadata with
    | none => none
    | some (fileSize, modifiedAt) =>
      match f.hashResult with
      | none => none
      | some fileHash =>
        let dims : Nat × Nat :=
          match mediaType with
          | MediaType.image => f.imageDims.getD (0, 0)
          | MediaType.video => (0, 0)
        let takenAt : Option Int :=
          match mediaType with
          | MediaType.image => f.exifDate
          | MediaType.video => none
        let m := MediaFile.new now f.path fileHash fileSize
          (Int.ofNat dims.1) (Int.ofNat dims.2) mediaType
        some { m with takenAt := takenAt, modifiedAt := modifiedAt }

/-- The file input of the C9 theorems: a small image file. -/
def fC9 : FileInput :=
  { path := "a.jpg", metadata := some (10, 5), hashResult := some "HH",
    imageDims := some (2, 3), exifDate := none }

/-- C9, counterexample: two runs of the scanner's per-file processing on
identical file bytes and filesystem metadata, at wall-clock instants 0 and
1, produce different `MediaFile` records — the `created_at` field is
stamped with `Utc::now()` at call time, so not every field is equal. -/
theorem c9_created_at_counterexample :
    process_media_file 0 fC9 ≠ process_media_file 1 fC9 := by decide

/-- C9, amended: per-file processing is deterministic in every field
except `created_at`: two successful runs on the same file bytes and
metadata agree on id, path, hash, size, dimensions, capture date,
modification date, thumbnail and type, while `created_at` equals the
wall-clock instant of the respective run. -/
theorem c9_deterministic_except_created_at (now1 now2 : Int) (f : FileInput)
    (m1 m2 : MediaFile)
    (h1 : process_media_file now1 f = some m1)
    (h2 : process_media_file now2 f = some m2) :
    m1.id = m2.id ∧ m1.filePath = m2.filePath ∧ m1.fileHash = m2.fileHash ∧
    m1.fileSize = m2.fileSize ∧ m1.width = m2.width ∧ m1.height = m2.height ∧
    m1.takenAt = m2.takenAt ∧ m1.modifiedAt = m2.modifiedAt ∧
    m1.thumbnailPath = m2.thumbnailPath ∧ m1.mediaType = m2.mediaType ∧
    m1.createdAt = now1 ∧ m2.createdAt = now2 := by
  cases hmt : is_media_file f.path with
  | none => rw [process_media_file, hmt] at h1; exact absurd h1 (by simp)
  | some mt =>
    cases hmd : f.metadata with
    | none =>
        rw [process_media_file, hmt, hmd] at h1
        exact absurd h1 (by simp)
    | some md =>
      obtain ⟨len, modified⟩ := md
      cases hh : f.hashResult with
      | none =>
          rw [process_media_file, hmt, hmd, hh] at h1
          exact absurd h1 (by simp)
      | some hsh =>
          simp only [process_media_file, hmt, hmd, hh, Option.some.injEq] at h1 h2
          subst h1
          subst h2
          simp [MediaFile.new]

/-- The `MediaFile` produced from `fC9` at instant `now`. -/
def mC9 (now : Int) : MediaFile :=
  { id := 0, filePath := "a.jpg", fileHash := "HH", fileSize := 10, width := 2,
    height := 3, takenAt := none, modifiedAt := 5, thumbnailPath := none,
    mediaType := MediaType.image, createdAt := now }

/-- Witness for C9 (amended) on the concrete file at instants 0 and 1. -/
theorem c9_deterministic_except_created_at_witness :
    (mC9 0).id = (mC9 1).id ∧ (mC9 0).filePath = (mC9 1).filePath ∧
    (mC9 0).fileHash = (mC9 1).fileHash ∧ (mC9 0).fileSize = (mC9 1).fileSize ∧
    (mC9 0).width = (mC9 1).width ∧ (mC9 0).height = (mC9 1).height ∧
    (mC9 0).takenAt = (mC9 1).takenAt ∧ (mC9 0).modifiedAt = (mC9 1).modifiedAt ∧
    (mC9 0).thumbnailPath = (mC9 1).thumbnailPath ∧
    (mC9 0).mediaType = (mC9 1).mediaType ∧
    (mC9 0).createdAt = 0 ∧ (mC9 1).createdAt = 1 :=
  c9_deterministic_except_created_at 0 1 fC9 (mC9 0) (mC9 1) (by decide) (by decide)

end Pengler
